import Mathlib

/-!
Verification of the dnsfail reset-timer core: a shallow embedding of the
persistence store (`save_state` / `load_state` in `dns_counter.py`), the
duration formatter (`format_duration`), the debounced button monitor
(`_check_button`), and the reset paths (`DNSCounter.reset`, the
`web_server.py` reset endpoint, and the legacy `webui/routes.py` reset
endpoint), together with proofs of the specified properties.

Python `datetime` values are modelled as records of calendar fields with an
optional UTC offset in minutes (`none` = naive); machine time is exact
integer arithmetic (the float rounding of `timedelta.total_seconds()` is
modelled as exact, which is faithful for every magnitude the display
handles).  `datetime.isoformat` / `datetime.fromisoformat` and
`json.dump` / `json.load` are external stdlib collaborators; they are
embedded here restricted to the canonical grammar this program writes and
reads (ASCII, space-only whitespace, string and unsigned-integer JSON
values, no escape sequences - none of which the program ever produces).
-/

namespace DnsFail

/-- Model of a Python `datetime.datetime`: calendar fields plus an optional
UTC offset in whole minutes (`none` models a naive datetime, `some 0`
models `timezone.utc`). -/
structure Datetime where
  year : Nat
  month : Nat
  day : Nat
  hour : Nat
  minute : Nat
  second : Nat
  microsecond : Nat
  tzOffsetMin : Option Int
deriving DecidableEq, Repr

/-- Field ranges of a well-formed `datetime` value (Python enforces these in
the `datetime` constructor; offsets of class `timezone` are strictly less
than one day, in whole minutes here). -/
def Datetime.Valid (t : Datetime) : Prop :=
  t.year < 10000 ∧ 1 ≤ t.month ∧ t.month ≤ 12 ∧ 1 ≤ t.day ∧ t.day ≤ 31 ∧
    t.hour < 24 ∧ t.minute < 60 ∧ t.second < 60 ∧ t.microsecond < 1000000 ∧
    (t.tzOffsetMin.getD 0).natAbs < 1440

instance (t : Datetime) : Decidable t.Valid := by
  unfold Datetime.Valid; infer_instance

/-- The character of a single decimal digit. -/
def digitChar (d : Nat) : Char := Char.ofNat (48 + d)

/-- Zero-padded fixed-width decimal digits, most significant first
(the `%02d`-style padding used by `datetime.isoformat`). -/
def padDigits : Nat → Nat → List Char
  | 0, _ => []
  | w + 1, n => digitChar (n / 10 ^ w) :: padDigits w (n % 10 ^ w)

def isDigitChar (c : Char) : Bool := 48 ≤ c.toNat && c.toNat ≤ 57

def digitVal (c : Char) : Nat := c.toNat - 48

/-- Read exactly `w` decimal digits, folding them onto `acc`; fails on a
non-digit or on exhausted input. -/
def readDigits : Nat → Nat → List Char → Option (Nat × List Char)
  | 0, acc, cs => some (acc, cs)
  | _ + 1, _, [] => none
  | w + 1, acc, c :: cs =>
    if isDigitChar c then readDigits w (acc * 10 + digitVal c) cs else none

theorem digitChar_spec {d : Nat} (h : d < 10) :
    isDigitChar (digitChar d) = true ∧ digitVal (digitChar d) = d := by
  interval_cases d <;> exact ⟨by decide, by decide⟩

theorem padDigits_length (w n : Nat) : (padDigits w n).length = w := by
  induction w generalizing n with
  | zero => rfl
  | succ w ih => simp [padDigits, ih]

theorem readDigits_padDigits (w : Nat) :
    ∀ (n acc : Nat) (rest : List Char), n < 10 ^ w →
      readDigits w acc (padDigits w n ++ rest) = some (acc * 10 ^ w + n, rest) := by
  induction w with
  | zero =>
    intro n acc rest hn
    have : n = 0 := by omega
    subst this
    simp [padDigits, readDigits]
  | succ w ih =>
    intro n acc rest hn
    have hd : n / 10 ^ w < 10 := by
      have hpos : 0 < 10 ^ w := Nat.pos_pow_of_pos w (by omega)
      have : n < 10 * 10 ^ w := by
        calc n < 10 ^ (w + 1) := hn
        _ = 10 * 10 ^ w := by ring
      exact Nat.div_lt_of_lt_mul (by omega)
    obtain ⟨hdig, hval⟩ := digitChar_spec hd
    have hmod : n % 10 ^ w < 10 ^ w :=
      Nat.mod_lt _ (Nat.pos_pow_of_pos w (by omega))
    simp only [padDigits, List.cons_append, readDigits, hdig, if_true, hval]
    rw [List.append_eq, ih (n % 10 ^ w) (acc * 10 + n / 10 ^ w) rest hmod]
    congr 2
    have hdm : 10 ^ w * (n / 10 ^ w) + n % 10 ^ w = n := Nat.div_add_mod n (10 ^ w)
    have hp : (10 : Nat) ^ (w + 1) = 10 * 10 ^ w := by ring
    calc (acc * 10 + n / 10 ^ w) * 10 ^ w + n % 10 ^ w
        = acc * (10 * 10 ^ w) + (10 ^ w * (n / 10 ^ w) + n % 10 ^ w) := by ring
      _ = acc * 10 ^ (w + 1) + n := by rw [hdm, ← hp]

/-- `datetime.isoformat()` on the model: `YYYY-MM-DDTHH:MM:SS[.ffffff][+HH:MM]`.
The fractional part is omitted when `microsecond = 0` and the offset part is
omitted for naive values, exactly as in Python; a negative offset prints a
leading minus sign before the absolute `HH:MM`. -/
def isoChars (t : Datetime) : List Char :=
  padDigits 4 t.year ++ ['-'] ++ padDigits 2 t.month ++ ['-'] ++ padDigits 2 t.day ++
    ['T'] ++ padDigits 2 t.hour ++ [':'] ++ padDigits 2 t.minute ++ [':'] ++
    padDigits 2 t.second ++
    (if t.microsecond = 0 then [] else ['.'] ++ padDigits 6 t.microsecond) ++
    (match t.tzOffsetMin with
     | none => []
     | some off =>
       [if 0 ≤ off then '+' else '-'] ++ padDigits 2 (off.natAbs / 60) ++ [':'] ++
         padDigits 2 (off.natAbs % 60))

/-- `self.last_reset.isoformat()` as a string. -/
def Datetime.isoformat (t : Datetime) : String := String.mk (isoChars t)

/-- Consume one expected character. -/
def expectChar (c : Char) : List Char → Option (List Char)
  | [] => none
  | x :: xs => if x = c then some xs else none

/-- The optional fractional-seconds component of the ISO grammar: a dot
followed by six digits, or nothing (microseconds default to 0). -/
def parseFrac (cs : List Char) : Option (Nat × List Char) :=
  match cs with
  | c :: rest => if c = '.' then readDigits 6 0 rest else some (0, c :: rest)
  | [] => some (0, [])

/-- The optional UTC-offset component of the ISO grammar: a sign followed by
`HH:MM` and end of input, or end of input (a naive value). -/
def parseTz (cs : List Char) : Option (Option Int) :=
  match cs with
  | [] => some none
  | c :: rest =>
    if c = '+' ∨ c = '-' then
      match readDigits 2 0 rest with
      | none => none
      | some (oh, rest1) =>
        match expectChar ':' rest1 with
        | none => none
        | some rest2 =>
          match readDigits 2 0 rest2 with
          | none => none
          | some (om, rest3) =>
            match rest3 with
            | [] =>
              some (some (if c = '+' then ((oh * 60 + om : Nat) : Int)
                          else -((oh * 60 + om : Nat) : Int)))
            | _ => none
    else none

/-- Model of `datetime.fromisoformat`, restricted to the canonical grammar
that `Datetime.isoformat` emits (the only shape this program ever writes):
`YYYY-MM-DDTHH:MM:SS`, then optionally `.ffffff`, then optionally `±HH:MM`. -/
def parseIsoChars (cs : List Char) : Option Datetime :=
  match readDigits 4 0 cs with
  | none => none
  | some (y, cs) =>
  match expectChar '-' cs with
  | none => none
  | some cs =>
  match readDigits 2 0 cs with
  | none => none
  | some (mo, cs) =>
  match expectChar '-' cs with
  | none => none
  | some cs =>
  match readDigits 2 0 cs with
  | none => none
  | some (d, cs) =>
  match expectChar 'T' cs with
  | none => none
  | some cs =>
  match readDigits 2 0 cs with
  | none => none
  | some (h, cs) =>
  match expectChar ':' cs with
  | none => none
  | some cs =>
  match readDigits 2 0 cs with
  | none => none
  | some (mi, cs) =>
  match expectChar ':' cs with
  | none => none
  | some cs =>
  match readDigits 2 0 cs with
  | none => none
  | some (s, cs) =>
  match parseFrac cs with
  | none => none
  | some (us, cs) =>
  match parseTz cs with
  | none => none
  | some tz => some ⟨y, mo, d, h, mi, s, us, tz⟩

/-- `datetime.fromisoformat(str)` on the model. -/
def fromisoformat (str : String) : Option Datetime := parseIsoChars str.data

theorem readDigits_pad0 {w n : Nat} (rest : List Char) (h : n < 10 ^ w) :
    readDigits w 0 (padDigits w n ++ rest) = some (n, rest) := by
  simpa using readDigits_padDigits w n 0 rest h

theorem expectChar_cons_self (c : Char) (xs : List Char) :
    expectChar c (c :: xs) = some xs := by
  simp [expectChar]

theorem parseFrac_dot (rest : List Char) :
    parseFrac ('.' :: rest) = readDigits 6 0 rest := by
  simp [parseFrac]

theorem parseFrac_skip {c : Char} (rest : List Char) (h : c ≠ '.') :
    parseFrac (c :: rest) = some (0, c :: rest) := by
  simp [parseFrac, h]

theorem parseTz_none (o : Int) (h : o.natAbs < 1440) :
    parseTz ((if (0 : Int) ≤ o then '+' else '-') ::
        (padDigits 2 (o.natAbs / 60) ++ ':' :: padDigits 2 (o.natAbs % 60))) =
      some (some o) := by
  have hoh : o.natAbs / 60 < 10 ^ 2 := by omega
  have hom : o.natAbs % 60 < 10 ^ 2 := by omega
  by_cases hsign : (0 : Int) ≤ o
  · rw [if_pos hsign]
    unfold parseTz
    dsimp only
    rw [if_pos (Or.inl rfl)]
    rw [readDigits_pad0 _ hoh]
    dsimp only
    rw [expectChar_cons_self]
    dsimp only
    rw [show padDigits 2 (o.natAbs % 60) = padDigits 2 (o.natAbs % 60) ++ [] from
      (List.append_nil _).symm]
    rw [readDigits_pad0 _ hom]
    dsimp only
    rw [if_pos rfl]
    congr 2
    omega
  · rw [if_neg hsign]
    unfold parseTz
    dsimp only
    rw [if_pos (Or.inr rfl)]
    rw [readDigits_pad0 _ hoh]
    dsimp only
    rw [expectChar_cons_self]
    dsimp only
    rw [show padDigits 2 (o.natAbs % 60) = padDigits 2 (o.natAbs % 60) ++ [] from
      (List.append_nil _).symm]
    rw [readDigits_pad0 _ hom]
    dsimp only
    rw [if_neg (by decide)]
    congr 2
    omega

/-- `fromisoformat` is a left inverse of `isoformat` on well-formed datetimes
(Python documents `fromisoformat` as able to parse every `isoformat` output). -/
theorem parseIsoChars_isoChars (t : Datetime) (h : t.Valid) :
    parseIsoChars (isoChars t) = some t := by
  obtain ⟨y, mo, d, hh, mi, s, us, off⟩ := t
  obtain ⟨h1, h2, h3, h4, h5, h6, h7, h8, h9, h10⟩ := h
  simp only at h1 h2 h3 h4 h5 h6 h7 h8 h9 h10
  unfold isoChars parseIsoChars
  simp only [List.append_assoc, List.cons_append, List.nil_append]
  rw [readDigits_pad0 _ (show y < 10 ^ 4 by omega)]
  dsimp only
  rw [expectChar_cons_self]
  dsimp only
  rw [readDigits_pad0 _ (show mo < 10 ^ 2 by omega)]
  dsimp only
  rw [expectChar_cons_self]
  dsimp only
  rw [readDigits_pad0 _ (show d < 10 ^ 2 by omega)]
  dsimp only
  rw [expectChar_cons_self]
  dsimp only
  rw [readDigits_pad0 _ (show hh < 10 ^ 2 by omega)]
  dsimp only
  rw [expectChar_cons_self]
  dsimp only
  rw [readDigits_pad0 _ (show mi < 10 ^ 2 by omega)]
  dsimp only
  rw [expectChar_cons_self]
  dsimp only
  by_cases hus : us = 0
  · subst hus
    rw [if_pos rfl]
    match off with
    | none =>
      dsimp only
      rw [List.nil_append, readDigits_pad0 _ (show s < 10 ^ 2 by omega)]
      dsimp only
      rw [show parseFrac [] = some (0, []) from rfl]
      dsimp only
      rw [show parseTz [] = some none from rfl]
    | some o =>
      simp only [Option.getD_some] at h10
      dsimp only
      rw [List.nil_append, readDigits_pad0 _ (show s < 10 ^ 2 by omega)]
      dsimp only
      rw [parseFrac_skip _ (by split <;> decide)]
      dsimp only
      rw [parseTz_none o h10]
  · rw [if_neg hus]
    match off with
    | none =>
      dsimp only
      simp only [List.cons_append, List.nil_append, List.append_nil, List.append_assoc]
      rw [readDigits_pad0 _ (show s < 10 ^ 2 by omega)]
      dsimp only
      rw [parseFrac_dot,
        show padDigits 6 us = padDigits 6 us ++ [] from (List.append_nil _).symm,
        readDigits_pad0 _ (show us < 10 ^ 6 by omega)]
      dsimp only
      rw [show parseTz [] = some none from rfl]
    | some o =>
      simp only [Option.getD_some] at h10
      dsimp only
      simp only [List.cons_append, List.nil_append, List.append_assoc]
      rw [readDigits_pad0 _ (show s < 10 ^ 2 by omega)]
      dsimp only
      rw [parseFrac_dot, readDigits_pad0 _ (show us < 10 ^ 6 by omega)]
      dsimp only
      rw [parseTz_none o h10]

/-! ### JSON layer

`json.dump` / `json.load` are embedded restricted to the canonical subset
this program reads and writes: one-level objects whose values are plain
strings (no escape sequences - the ISO timestamps it stores contain none)
or unsigned integers, with optional single-space whitespace.  `json.load`
rejects trailing data and malformed input, which the model mirrors by
returning `none`. -/

def lbraceChar : Char := Char.ofNat 123

def rbraceChar : Char := Char.ofNat 125

/-- A JSON value of the subset the program stores: a string or an
unsigned integer. -/
inductive JVal where
  | jstr : List Char → JVal
  | jnum : Nat → JVal
deriving DecidableEq, Repr

/-- Skip blanks (the only whitespace the program's serializer emits). -/
def skipWs : List Char → List Char
  | [] => []
  | c :: cs => if c = ' ' then skipWs cs else c :: cs

/-- Scan a JSON string body up to the closing quote (escape sequences are
outside the modelled subset; none are ever produced by the program). -/
def takeStringBody : List Char → Option (List Char × List Char)
  | [] => none
  | c :: cs =>
    if c = '"' then some ([], cs)
    else if c = '\\' then none
    else
      match takeStringBody cs with
      | none => none
      | some (s, rest) => some (c :: s, rest)

/-- Longest digit run at the head of the input. -/
def spanDigits : List Char → List Char × List Char
  | [] => ([], [])
  | c :: cs =>
    if isDigitChar c then
      match spanDigits cs with
      | (ds, r) => (c :: ds, r)
    else ([], c :: cs)

def digitsToNat (ds : List Char) : Nat := ds.foldl (fun a c => a * 10 + digitVal c) 0

/-- Parse one JSON value of the modelled subset. -/
def parseValue (cs : List Char) : Option (JVal × List Char) :=
  match cs with
  | [] => none
  | c :: rest =>
    if c = '"' then
      match takeStringBody rest with
      | some (s, r) => some (.jstr s, r)
      | none => none
    else if isDigitChar c then
      some (.jnum (digitsToNat (spanDigits (c :: rest)).1), (spanDigits (c :: rest)).2)
    else none

/-- Parse the member list of a nonempty JSON object, consuming the closing
brace; `fuel` bounds the number of members (callers pass the input length,
an upper bound since every member consumes at least one character). -/
def parseMembers : Nat → List Char → Option (List (List Char × JVal) × List Char)
  | 0, _ => none
  | fuel + 1, cs =>
    match expectChar '"' (skipWs cs) with
    | none => none
    | some cs1 =>
      match takeStringBody cs1 with
      | none => none
      | some (k, cs2) =>
        match expectChar ':' (skipWs cs2) with
        | none => none
        | some cs3 =>
          match parseValue (skipWs cs3) with
          | none => none
          | some (v, cs4) =>
            match skipWs cs4 with
            | [] => none
            | c :: rest =>
              if c = ',' then
                match parseMembers fuel rest with
                | none => none
                | some (ms, rest2) => some ((k, v) :: ms, rest2)
              else if c = rbraceChar then some ([(k, v)], rest)
              else none

/-- Model of `json.load` on the subset: a single object, rejecting trailing
data (Python raises `json.JSONDecodeError` there, which `load_state` folds
into the fallback). -/
def parseJson (cs : List Char) : Option (List (List Char × JVal)) :=
  match skipWs cs with
  | [] => none
  | c :: rest =>
    if c = lbraceChar then
      match skipWs rest with
      | [] => none
      | c2 :: rest2 =>
        if c2 = rbraceChar then (if skipWs rest2 = [] then some [] else none)
        else
          match parseMembers (rest.length + 1) rest with
          | none => none
          | some (ms, rest3) => if skipWs rest3 = [] then some ms else none
    else none

/-- First binding of a key in a parsed object (the inputs this program
produces never contain duplicate keys). -/
def lookupKey (k : List Char) : List (List Char × JVal) → Option JVal
  | [] => none
  | (k2, v) :: ms => if k2 = k then some v else lookupKey k ms

def lastResetKey : List Char := ['l', 'a', 's', 't', '_', 'r', 'e', 's', 'e', 't']

def versionKey : List Char := ['v', 'e', 'r', 's', 'i', 'o', 'n']

theorem lastResetKey_eq : lastResetKey = ("last_reset").data := rfl

theorem versionKey_eq : versionKey = ("version").data := rfl

/-! ### Persistence store: `DNSCounter.save_state` / `DNSCounter.load_state` -/

/-- The serialized bytes before the timestamp: `{"last_reset": "`. -/
def saveHeadChars : List Char :=
  [lbraceChar, '"'] ++ lastResetKey ++ ['"', ':', ' ', '"']

/-- The serialized bytes after the timestamp's closing quote:
`, "version": 1}`. -/
def midTailChars : List Char :=
  [',', ' ', '"'] ++ versionKey ++ ['"', ':', ' ', '1', rbraceChar]

/-- The serialized bytes after the timestamp: `", "version": 1}`. -/
def saveMidChars : List Char := '"' :: midTailChars

/-- The exact bytes `json.dump({"last_reset": iso, "version": 1}, tf)`
writes (Python's default separators put one space after `:` and `,`). -/
def saveContentChars (iso : List Char) : List Char :=
  saveHeadChars ++ iso ++ saveMidChars

/-- Sanity check: the serialized form is byte-for-byte the Python output
`{"last_reset": "<iso>", "version": 1}`. -/
theorem saveContentChars_eq (iso : List Char) :
    saveContentChars iso =
      ("\x7b\"last_reset\": \"").data ++ iso ++ ("\", \"version\": 1\x7d").data := rfl

/-- The full persisted-file content `save_state` produces for origin `t`. -/
def save_content (t : Datetime) : String := String.mk (saveContentChars (isoChars t))

/-- `DNSCounter.load_state`, with the file-system interaction abstracted to
`content` (`none` models `os.path.exists` returning false; `some cs` the
bytes read).  Every failure path (`json.JSONDecodeError`, missing or falsy
`last_reset` value, `fromisoformat` error - all caught by the handlers in
`load_state`) returns the caller-supplied current time `now`; a number
under `last_reset` also falls back (`fromisoformat` raises `TypeError`,
caught by the generic handler). -/
def load_state (content : Option (List Char)) (now : Datetime) : Datetime :=
  match content with
  | none => now
  | some cs =>
    match parseJson cs with
    | none => now
    | some data =>
      match lookupKey lastResetKey data with
      | some (.jstr s) =>
        if s = [] then now
        else
          match parseIsoChars s with
          | some t => t
          | none => now
      | some (.jnum _) => now
      | none => now

/-- A file system: a map from paths to file contents. -/
def FS := String → Option String

def fsUpdate (fs : FS) (p : String) (v : Option String) : FS :=
  fun q => if q = p then v else fs q

/-- Model of `os.path.dirname` (CPython's posixpath implementation:
everything up to the last slash, trailing slashes stripped unless the
head is all slashes). -/
def dirname (p : String) : String :=
  let tailLen := (p.data.reverse.takeWhile (fun c => c ≠ '/')).length
  let head := p.data.take (p.data.length - tailLen)
  if head ≠ [] ∧ ¬ head.all (fun c => c = '/') then
    String.mk (head.reverse.dropWhile (fun c => c = '/')).reverse
  else String.mk head

/-- The three file-system states `DNSCounter.save_state` steps through:
after `tempfile.NamedTemporaryFile(dir=os.path.dirname(target))` creates
the fresh temp file, after `json.dump` writes the full content into it,
and after `os.rename(tf.name, target)` moves it over the target. -/
def save_state_trace (fs : FS) (target tmp : String) (t : Datetime) : FS × FS × FS :=
  let s1 := fsUpdate fs tmp (some "")
  let s2 := fsUpdate s1 tmp (some (save_content t))
  let s3 := fsUpdate (fsUpdate s2 target (s2 tmp)) tmp none
  (s1, s2, s3)

/-! ### Supporting lemmas for the save/load round trip -/

theorem mem_padDigits {w n : Nat} (hn : n < 10 ^ w) {c : Char}
    (hc : c ∈ padDigits w n) : ∃ d, d < 10 ∧ c = digitChar d := by
  induction w generalizing n with
  | zero => simp [padDigits] at hc
  | succ w ih =>
    simp only [padDigits, List.mem_cons] at hc
    rcases hc with rfl | hc
    · refine ⟨n / 10 ^ w, ?_, rfl⟩
      have hpos : 0 < 10 ^ w := Nat.pos_pow_of_pos w (by omega)
      have : n < 10 ^ w * 10 := by
        calc n < 10 ^ (w + 1) := hn
        _ = 10 ^ w * 10 := by ring
      exact Nat.div_lt_of_lt_mul this
    · exact ih (Nat.mod_lt _ (Nat.pos_pow_of_pos w (by omega))) hc

theorem digitChar_not_special {d : Nat} (h : d < 10) :
    digitChar d ≠ '"' ∧ digitChar d ≠ '\\' := by
  interval_cases d <;> exact ⟨by decide, by decide⟩

/-- The timestamp strings `isoformat` produces never contain a quote or a
backslash, so they embed into JSON strings verbatim. -/
theorem isoChars_no_special (t : Datetime) (hv : t.Valid) :
    ∀ c ∈ isoChars t, c ≠ '"' ∧ c ≠ '\\' := by
  obtain ⟨y, mo, d, hh, mi, s, us, off⟩ := t
  obtain ⟨h1, h2, h3, h4, h5, h6, h7, h8, h9, h10⟩ := hv
  simp only at h1 h2 h3 h4 h5 h6 h7 h8 h9 h10
  intro c hc
  unfold isoChars at hc
  have hpad : ∀ (w n : Nat), n < 10 ^ w → c ∈ padDigits w n →
      c ≠ '"' ∧ c ≠ '\\' := by
    intro w n hn hcn
    obtain ⟨dd, hdd, rfl⟩ := mem_padDigits hn hcn
    exact digitChar_not_special hdd
  rcases off with _ | o <;> by_cases hus : us = 0 <;>
    simp only [hus, reduceIte, Option.getD_some,
      List.append_assoc, List.cons_append, List.nil_append, List.append_nil,
      List.mem_append, List.mem_cons, List.not_mem_nil, or_false, false_or] at hc h10 <;>
    repeat'
      first
      | exact hpad _ _ (by omega) hc
      | (rw [hc]; exact ⟨by decide, by decide⟩)
      | (rw [hc]; constructor <;> (split <;> decide))
      | (rcases hc with hc | hc)

theorem takeStringBody_append (s rest : List Char)
    (h : ∀ c ∈ s, c ≠ '"' ∧ c ≠ '\\') :
    takeStringBody (s ++ '"' :: rest) = some (s, rest) := by
  induction s with
  | nil => simp [takeStringBody]
  | cons c cs ih =>
    obtain ⟨hq, hb⟩ := h c (by simp)
    simp only [List.cons_append, takeStringBody, if_neg hq, if_neg hb]
    rw [List.append_eq, ih (fun x hx => h x (by simp [hx]))]

/-- The second member, ` "version": 1}`, parses on any remaining fuel. -/
theorem parseMembers_versionTail (m : Nat) :
    parseMembers (m + 1)
        (' ' :: '"' :: (versionKey ++ ('"' :: ':' :: ' ' :: '1' :: rbraceChar :: []))) =
      some ([(versionKey, .jnum 1)], []) := rfl

/-- The member list of the persisted JSON object parses back to the two
bindings `save_state` wrote, for any timestamp string without quotes or
backslashes. -/
theorem parseMembers_save (m : Nat) (iso : List Char)
    (hch : ∀ c ∈ iso, c ≠ '"' ∧ c ≠ '\\') :
    parseMembers (m + 1 + 1)
        ('"' :: (lastResetKey ++ ('"' :: ':' :: ' ' :: '"' :: (iso ++ ('"' :: midTailChars))))) =
      some ([(lastResetKey, .jstr iso), (versionKey, .jnum 1)], []) := by
  simp only [parseMembers]
  rw [show skipWs ('"' :: (lastResetKey ++ ('"' :: ':' :: ' ' :: '"' ::
    (iso ++ ('"' :: midTailChars))))) = '"' :: (lastResetKey ++ ('"' :: ':' :: ' ' :: '"' ::
    (iso ++ ('"' :: midTailChars)))) from rfl]
  rw [expectChar_cons_self]
  dsimp only
  rw [takeStringBody_append lastResetKey _ (by decide)]
  dsimp only
  rw [show skipWs (':' :: ' ' :: '"' :: (iso ++ ('"' :: midTailChars))) =
    ':' :: ' ' :: '"' :: (iso ++ ('"' :: midTailChars)) from rfl]
  rw [expectChar_cons_self]
  dsimp only
  rw [show skipWs (' ' :: '"' :: (iso ++ ('"' :: midTailChars))) =
    '"' :: (iso ++ ('"' :: midTailChars)) from rfl]
  simp only [parseValue, if_true]
  rw [takeStringBody_append iso midTailChars hch]
  dsimp only
  rfl

/-- `json.load` inverts `json.dump` on the persisted record, for any
timestamp string free of quotes and backslashes. -/
theorem parseJson_save (iso : List Char)
    (hch : ∀ c ∈ iso, c ≠ '"' ∧ c ≠ '\\') :
    parseJson (saveContentChars iso) =
      some [(lastResetKey, .jstr iso), (versionKey, .jnum 1)] := by
  unfold parseJson saveContentChars saveHeadChars saveMidChars
  simp only [List.cons_append, List.nil_append, List.append_assoc]
  rw [show skipWs (lbraceChar :: '"' :: (lastResetKey ++ ('"' :: ':' :: ' ' :: '"' ::
    (iso ++ ('"' :: midTailChars))))) = lbraceChar :: '"' :: (lastResetKey ++
    ('"' :: ':' :: ' ' :: '"' :: (iso ++ ('"' :: midTailChars)))) from rfl]
  dsimp only
  rw [if_pos rfl]
  rw [show skipWs ('"' :: (lastResetKey ++ ('"' :: ':' :: ' ' :: '"' ::
    (iso ++ ('"' :: midTailChars))))) = '"' :: (lastResetKey ++ ('"' :: ':' :: ' ' :: '"' ::
    (iso ++ ('"' :: midTailChars)))) from rfl]
  dsimp only
  rw [if_neg (by decide)]
  have h32 : ('"' :: (lastResetKey ++ ('"' :: ':' :: ' ' :: '"' ::
      (iso ++ ('"' :: midTailChars))))).length + 1 = (iso.length + 30) + 1 + 1 := by
    simp [lastResetKey, midTailChars, versionKey]
  rw [h32, parseMembers_save (iso.length + 30) iso hch]
  rfl

/-! ### Duration formatter: `DNSCounter.format_duration`

A Python `timedelta` is represented by its exact total length in
microseconds.  `duration.days` is the floor of that length in days
(Python normalizes `timedelta` so `.days` floors), Python `//` and `%` on
ints are floor division and nonnegative remainder (`Int.fdiv`/`Int.fmod`
for positive divisors), and `int(duration.total_seconds())` truncates
toward zero (`Int.tdiv`; the float rounding of `total_seconds()` is
modelled as exact). -/

/-- Python `f"{n:02d}"`: zero-pad to width two; a sign counts toward the
width and precedes any padding. -/
def format02 (n : Int) : String :=
  if n < 0 then "-" ++ toString n.natAbs
  else (if n < 10 then "0" else "") ++ toString n.natAbs

/-- `DNSCounter.format_duration` on a duration of `usec` microseconds. -/
def format_duration (usec : Int) : String × String :=
  let total_seconds := usec.tdiv 1000000
  let days := usec.fdiv 86400000000
  let years := days.fdiv 365
  let months := (days.fmod 365).fdiv 30
  let dys := (days.fmod 365).fmod 30
  let hours := (total_seconds.fdiv 3600).fmod 24
  let minutes := (total_seconds.fmod 3600).fdiv 60
  let seconds := total_seconds.fmod 60
  (format02 years ++ "y " ++ format02 months ++ "mo " ++ format02 dys ++ "d",
   format02 hours ++ "h " ++ format02 minutes ++ "m " ++ format02 seconds ++ "s")

/-- The decomposition as the specification words it: years, months and days
by the 365/30 div-mod chain on the day count, and hours, minutes, seconds
taken from the sub-day remainder of the integer total seconds. -/
def spec_format_duration (usec : Int) : String × String :=
  let days := usec.fdiv 86400000000
  let years := days.fdiv 365
  let months := (days.fmod 365).fdiv 30
  let dys := (days.fmod 365).fmod 30
  let total_seconds := usec.tdiv 1000000
  let subday := total_seconds.fmod 86400
  let hours := subday.fdiv 3600
  let minutes := (subday.fmod 3600).fdiv 60
  let seconds := subday.fmod 60
  (format02 years ++ "y " ++ format02 months ++ "mo " ++ format02 dys ++ "d",
   format02 hours ++ "h " ++ format02 minutes ++ "m " ++ format02 seconds ++ "s")

/-- Checked variant of `format_duration` in which every partial operation of
the Python source (each `//` and `%`, which raise `ZeroDivisionError` on a
zero divisor) is fallible; used to state that the formatter never raises. -/
def checkedFdiv (a b : Int) : Option Int := if b = 0 then none else some (a.fdiv b)

def checkedFmod (a b : Int) : Option Int := if b = 0 then none else some (a.fmod b)

def checkedTdiv (a b : Int) : Option Int := if b = 0 then none else some (a.tdiv b)

def format_duration_checked (usec : Int) : Option (String × String) := do
  let total_seconds ← checkedTdiv usec 1000000
  let days ← checkedFdiv usec 86400000000
  let years ← checkedFdiv days 365
  let r365 ← checkedFmod days 365
  let months ← checkedFdiv r365 30
  let dys ← checkedFmod r365 30
  let h1 ← checkedFdiv total_seconds 3600
  let hours ← checkedFmod h1 24
  let m1 ← checkedFmod total_seconds 3600
  let minutes ← checkedFdiv m1 60
  let seconds ← checkedFmod total_seconds 60
  some (format02 years ++ "y " ++ format02 months ++ "mo " ++ format02 dys ++ "d",
    format02 hours ++ "h " ++ format02 minutes ++ "m " ++ format02 seconds ++ "s")

theorem format_duration_eq_spec (usec : Int) :
    format_duration usec = spec_format_duration usec := by
  unfold format_duration spec_format_duration
  dsimp only
  have hhours : ∀ t : Int, (t.fdiv 3600).fmod 24 = (t.fmod 86400).fdiv 3600 := by
    intro t
    rw [Int.fmod_eq_emod _ (by norm_num), Int.fmod_eq_emod _ (by norm_num),
      Int.fdiv_eq_ediv _ (by norm_num), Int.fdiv_eq_ediv _ (by norm_num)]
    omega
  have hmin : ∀ t : Int, t.fmod 3600 = (t.fmod 86400).fmod 3600 := by
    intro t
    rw [Int.fmod_eq_emod _ (by norm_num), Int.fmod_eq_emod _ (by norm_num),
      Int.fmod_eq_emod _ (by norm_num)]
    omega
  have hsec : ∀ t : Int, t.fmod 60 = (t.fmod 86400).fmod 60 := by
    intro t
    rw [Int.fmod_eq_emod _ (by norm_num), Int.fmod_eq_emod _ (by norm_num),
      Int.fmod_eq_emod _ (by norm_num)]
    omega
  rw [hhours, hmin, hsec]

/-! ### Input monitor: `DNSCounter._check_button`

The polling loop is modelled as a fold over samples `(t, value)`: the
instant (in milliseconds) at which the loop reads the line, and the raw
value read (0 = pressed, active low).  In the source `last_press` starts
at `0` and `time.time()` is seconds since the epoch, so the first press of
any real run happens at a time well above the 300 ms window; the debounce
test `current_time - last_press > 0.3` becomes `300 < t - lastPress`. -/

structure ButtonState where
  lastPress : Nat
  lastValue : Option Nat
  resets : List Nat
deriving DecidableEq, Repr

/-- One iteration of the `while True` body of `_check_button` on a sample:
on a change of value the handler records the new value; on a press (value
0) inside the debounce window the edge is discarded and `last_press` is
left alone; past the window the Reset Operation runs (recorded in
`resets`) and `last_press` advances to this press. -/
def check_button_step (s : ButtonState) (tv : Nat × Nat) : ButtonState :=
  if some tv.2 = s.lastValue then s
  else if tv.2 = 0 then
    if 300 < tv.1 - s.lastPress then
      { lastPress := tv.1, lastValue := some tv.2, resets := s.resets ++ [tv.1] }
    else { s with lastValue := some tv.2 }
  else { s with lastValue := some tv.2 }

def check_button_run (samples : List (Nat × Nat)) : ButtonState :=
  samples.foldl check_button_step ⟨0, none, []⟩

/-- Presses observed at `b`, `b + 200` and `b + 400` ms (with releases
observed by the 100 ms poll in between): the claim's edge events at
t = 0.0 s, 0.2 s and 0.4 s relative to scenario start `b`. -/
def pressTimeline (b : Nat) : List (Nat × Nat) :=
  [(b, 0), (b + 100, 1), (b + 200, 0), (b + 300, 1), (b + 400, 0)]

/-! ### Reset paths: `DNSCounter.reset`, `_check_button`'s inlined reset,
`web_server.py`'s endpoint, and the legacy `webui/routes.py` endpoint -/

/-- `datetime.now(timezone.utc)` for wall-clock reading `wall`. -/
def nowUtc (wall : Datetime) : Datetime := { wall with tzOffsetMin := some 0 }

/-- `datetime.now()` (naive) for wall-clock reading `wall`. -/
def nowNaive (wall : Datetime) : Datetime := { wall with tzOffsetMin := none }

/-- Observable state shared by the reset paths: the in-memory origin
`last_reset`, the persisted file content, and how many audio
notifications have been attempted. -/
structure CounterState where
  lastReset : Datetime
  savedFile : Option (List Char)
  audioAttempts : Nat
deriving DecidableEq, Repr

/-- `DNSCounter.reset` - and equally the inlined body of the button
handler in `_check_button`: set the origin to `datetime.now(timezone.utc)`,
persist it via `save_state`, then attempt the audio notification.  The
callback-wired `web_server` endpoint delegates here. -/
def dns_counter_reset (wall : Datetime) (s : CounterState) : CounterState :=
  { lastReset := nowUtc wall
    savedFile := some (saveContentChars (isoChars (nowUtc wall)))
    audioAttempts := s.audioAttempts + 1 }

/-- The `webui/routes.py` `reset_counter` endpoint:
`counter.last_reset = datetime.now()` and nothing else - no `save_state`
call, no audio notification, and a naive timestamp. -/
def webui_reset_counter (wall : Datetime) (s : CounterState) : CounterState :=
  { s with lastReset := nowNaive wall }

/-- `DNSCounter.get_last_reset`: a pure read of the origin. -/
def get_last_reset (s : CounterState) : Datetime := s.lastReset

/-! ### Exception flow of the reset sub-steps (for the error-independence
property).  `attempt fails` models running a fallible effect body:
`.error` is the body raising an exception. -/

def attempt (fails : Bool) : Except Unit Unit := if fails then .error () else .ok ()

/-- Outcome record of one reset execution. -/
structure ResetRun where
  originSet : Bool
  persistAttempted : Bool
  persistSucceeded : Bool
  audioAttempted : Bool
  audioSucceeded : Bool
  raisedToCaller : Bool
deriving DecidableEq, Repr

/-- `DNSCounter.save_state`: its whole body sits in
`try ... except Exception`, so a failing write is logged and never
propagates; the result says whether the write succeeded. -/
def save_state_run (persistFails : Bool) : Bool :=
  match attempt persistFails with
  | .ok _ => true
  | .error _ => false

/-- `DNSCounter.reset` with failure injection: assignment, then
`save_state` (which swallows its own errors), then the audio subprocess
inside its own `try ... except`.  Nothing propagates to the caller. -/
def dns_reset_run (persistFails audioFails : Bool) : ResetRun :=
  let psucc := save_state_run persistFails
  let asucc :=
    match attempt audioFails with
    | .ok _ => true
    | .error _ => false
  { originSet := true, persistAttempted := true, persistSucceeded := psucc,
    audioAttempted := true, audioSucceeded := asucc, raisedToCaller := false }

/-- `WebServer._save_state`: catches, logs, and then re-raises (`raise`),
so a persistence failure propagates to its caller. -/
def web_save_state_run (persistFails : Bool) : Except Unit Unit :=
  match attempt persistFails with
  | .ok _ => .ok ()
  | .error e => .error e

/-- The `web_server.py` `/api/reset` endpoint in standalone mode (no
`reset_callback`): `_save_state` then `_play_audio` inside the endpoint's
`try`; an exception from `_save_state` jumps to the endpoint's handler,
which returns a 500 response without reaching the audio step.
`_play_audio` catches all of its own errors. -/
def web_reset_standalone_run (persistFails audioFails : Bool) : ResetRun :=
  match web_save_state_run persistFails with
  | .error _ =>
    { originSet := true, persistAttempted := true, persistSucceeded := false,
      audioAttempted := false, audioSucceeded := false, raisedToCaller := false }
  | .ok _ =>
    let asucc :=
      match attempt audioFails with
      | .ok _ => true
      | .error _ => false
    { originSet := true, persistAttempted := true, persistSucceeded := true,
      audioAttempted := true, audioSucceeded := asucc, raisedToCaller := false }

theorem isoChars_ne_nil (t : Datetime) : isoChars t ≠ [] := by
  unfold isoChars
  intro h
  have h2 := congrArg List.length h
  simp only [List.length_append, padDigits_length, List.length_cons,
    List.length_nil, List.length_singleton] at h2
  omega

/-! ## Claim theorems -/

/-- C1: the claim says every code path that mutates the in-memory origin
performs the full Reset Operation (set origin, persist, notify).  The code
contradicts it: the `webui/routes.py` reset endpoint sets
`counter.last_reset = datetime.now()` and neither persists nor notifies
(and uses a naive timestamp), while `DNSCounter.reset` performs all three
steps.  This theorem evaluates both paths: the webui endpoint changes the
origin and leaves the persisted file and the audio-attempt count
untouched. -/
theorem webui_reset_bypasses_full_reset_operation (wall : Datetime) (s : CounterState) :
    (webui_reset_counter wall s).lastReset = nowNaive wall ∧
    (webui_reset_counter wall s).savedFile = s.savedFile ∧
    (webui_reset_counter wall s).audioAttempts = s.audioAttempts ∧
    (dns_counter_reset wall s).savedFile = some (saveContentChars (isoChars (nowUtc wall))) ∧
    (dns_counter_reset wall s).audioAttempts = s.audioAttempts + 1 :=
  ⟨rfl, rfl, rfl, rfl, rfl⟩

/-- C7: the claim says startup initialization and every reset path assign
only timezone-aware UTC timestamps.  The `load_state` fallback and
`DNSCounter.reset` do (offset `some 0`), but the `webui/routes.py` reset
endpoint assigns a naive `datetime.now()` (no offset), contradicting the
claim. -/
theorem origin_timezone_awareness_paths (wall : Datetime) (s : CounterState) :
    (load_state none (nowUtc wall)).tzOffsetMin = some 0 ∧
    (dns_counter_reset wall s).lastReset.tzOffsetMin = some 0 ∧
    (webui_reset_counter wall s).lastReset.tzOffsetMin = none :=
  ⟨rfl, rfl, rfl⟩

/-- C8 counterexample: in the `web_server.py` standalone reset path a
persistence failure prevents the audio notification - `_save_state`
re-raises, the endpoint's handler returns 500, and `_play_audio` is never
reached - contradicting the claim that a persistence failure must not
prevent the audio notification. -/
theorem web_standalone_persist_failure_blocks_audio :
    (web_reset_standalone_run true false).persistAttempted = true ∧
    (web_reset_standalone_run true false).audioAttempted = false := by
  decide

/-- C8 (amended): within `DNSCounter.reset` - the Reset Operation used by
the button handler and the callback-wired web endpoint - the persist and
audio sub-steps fail independently: persistence is always attempted, the
audio notification is always attempted whether or not persistence failed,
and neither failure reaches the caller.  In the `web_server.py` standalone
fallback an audio failure still cannot affect the already-completed
persistence and nothing is re-raised, but a persistence failure there
suppresses the audio attempt (the counterexample). -/
theorem reset_persist_audio_independent (persistFails audioFails : Bool) :
    dns_reset_run persistFails audioFails =
      { originSet := true, persistAttempted := true, persistSucceeded := !persistFails,
        audioAttempted := true, audioSucceeded := !audioFails, raisedToCaller := false } ∧
    (web_reset_standalone_run false audioFails).persistSucceeded = true ∧
    (web_reset_standalone_run false audioFails).audioAttempted = true ∧
    (web_reset_standalone_run persistFails audioFails).raisedToCaller = false := by
  cases persistFails <;> cases audioFails <;> decide

/-- C6: `format_duration` realizes exactly the decomposition the
specification states - years, months, days by the 365/30 div-mod chain on
the day count and hours, minutes, seconds from the sub-day remainder of
the integer total seconds - and reproduces the five pinned concrete
cases. -/
theorem format_duration_decomposition_and_cases :
    (∀ usec : Int, format_duration usec = spec_format_duration usec) ∧
    format_duration ((400 * 86400 + 16837) * 1000000) = ("01y 01mo 05d", "04h 40m 37s") ∧
    format_duration 0 = ("00y 00mo 00d", "00h 00m 00s") ∧
    format_duration (86400 * 1000000) = ("00y 00mo 01d", "00h 00m 00s") ∧
    format_duration (365 * 86400 * 1000000) = ("01y 00mo 00d", "00h 00m 00s") ∧
    format_duration (29 * 86400 * 1000000) = ("00y 00mo 29d", "00h 00m 00s") := by
  refine ⟨format_duration_eq_spec, ?_, ?_, ?_, ?_, ?_⟩ <;> decide

/-- C9: `format_duration` is total - every fallible operation in its body
(the integer divisions and remainders, whose divisors are the nonzero
constants 365, 30, 3600, 24, 60) succeeds on every input, including
negative durations, so the formatter returns a pair of strings and never
raises; the concrete negative case shows the value produced for
-0.5 seconds of elapsed time. -/
theorem format_duration_never_raises :
    (∀ usec : Int, format_duration_checked usec = some (format_duration usec)) ∧
    format_duration (-500000) = ("-1y 12mo 04d", "00h 00m 00s") := by
  constructor
  · intro usec
    simp [format_duration_checked, checkedTdiv, checkedFdiv, checkedFmod, format_duration]
  · decide

/-- C4: for every element of the corruption set - missing file, empty
file, the bytes `{invalid`, the bytes `{}`, and `{"version":1}` without a
`last_reset` key - `load_state` returns the current-time fallback; every
such failure is caught inside `load_state` (modelled by its total
fall-through structure), never raised to the caller. -/
theorem load_state_corruption_tolerance (now : Datetime) :
    load_state none now = now ∧
    load_state (some (("").data)) now = now ∧
    load_state (some (("\x7binvalid").data)) now = now ∧
    load_state (some (("\x7b\x7d").data)) now = now ∧
    load_state (some (("\x7b\"version\":1\x7d").data)) now = now :=
  ⟨rfl, rfl, rfl, rfl, rfl⟩

/-- C10: whenever the persisted JSON parses to an object whose
`last_reset` key holds the empty string, the falsy check
`if last_reset_str:` sends `load_state` to the current-time fallback
without attempting to parse the empty string as a timestamp. -/
theorem load_state_empty_string_last_reset (cs : List Char)
    (ms : List (List Char × JVal)) (now : Datetime)
    (hp : parseJson cs = some ms)
    (hl : lookupKey lastResetKey ms = some (.jstr [])) :
    load_state (some cs) now = now := by
  unfold load_state
  dsimp only
  rw [hp]
  dsimp only
  rw [hl]
  dsimp only
  rw [if_pos rfl]

/-- C5: with presses observed at `b`, `b + 200` and `b + 400` ms (and the
system running, so `b` exceeds the 300 ms window as `time.time()` always
does), the monitor accepts exactly the resets at `b` and `b + 400`; after
the discarded press at `b + 200` the debounce reference still reads `b`,
because only an accepted press advances it. -/
theorem button_debounce_accepts_two_of_three (b : Nat) (hb : 300 < b) :
    (check_button_run (pressTimeline b)).resets = [b, b + 400] ∧
    (check_button_run (List.take 3 (pressTimeline b))).resets = [b] ∧
    (check_button_run (List.take 3 (pressTimeline b))).lastPress = b := by
  have h1 : ¬ (300 < b + 200 - b) := by omega
  have h0 : 300 < b - 0 := by omega
  refine ⟨?_, ?_, ?_⟩ <;>
    simp [check_button_run, pressTimeline, check_button_step, hb, h0, h1,
      Nat.add_sub_cancel_left]

theorem button_debounce_accepts_two_of_three_witness :
    300 < 1000 ∧
    (check_button_run (pressTimeline 1000)).resets = [1000, 1000 + 400] ∧
    (check_button_run (List.take 3 (pressTimeline 1000))).resets = [1000] ∧
    (check_button_run (List.take 3 (pressTimeline 1000))).lastPress = 1000 :=
  ⟨by decide, (button_debounce_accepts_two_of_three 1000 (by decide)).1,
    (button_debounce_accepts_two_of_three 1000 (by decide)).2.1,
    (button_debounce_accepts_two_of_three 1000 (by decide)).2.2⟩

/-- C2: `save_state` first creates a fresh temporary file (in the
directory `os.path.dirname(target)`, as the `dir=` argument requests -
taken as the hypotheses `hne`/`hdir`, which is what
`tempfile.NamedTemporaryFile` guarantees), writes the full serialized
record into it, and only the final rename changes the target: before the
rename the target still holds exactly its previous content, and after it
the target holds exactly `{"last_reset": isoformat(t), "version": 1}`. -/
theorem save_state_crash_safe_replace (fs : FS) (target tmp : String) (t : Datetime)
    (hne : tmp ≠ target) (hdir : dirname tmp = dirname target) :
    (save_state_trace fs target tmp t).1 target = fs target ∧
    (save_state_trace fs target tmp t).2.1 target = fs target ∧
    (save_state_trace fs target tmp t).2.2 target = some (save_content t) ∧
    (save_state_trace fs target tmp t).2.2 tmp = none ∧
    dirname tmp = dirname target ∧
    save_content t = String.mk (("\x7b\"last_reset\": \"").data ++
      (Datetime.isoformat t).data ++ ("\", \"version\": 1\x7d").data) := by
  have htf : ¬ (target = tmp) := fun h => hne h.symm
  have hcontent : save_content t = String.mk (("\x7b\"last_reset\": \"").data ++
      (Datetime.isoformat t).data ++ ("\", \"version\": 1\x7d").data) := by
    unfold save_content Datetime.isoformat
    rw [saveContentChars_eq]
  refine ⟨?_, ?_, ?_, ?_, hdir, hcontent⟩ <;>
    simp [save_state_trace, fsUpdate, htf]

def wTarget : String := "/usr/local/share/dnsfail/last_reset.json"

def wTmp : String := "/usr/local/share/dnsfail/tmpw1x2y3"

def wFs : FS := fun _ => none

def wT : Datetime := ⟨2026, 1, 25, 10, 30, 45, 123456, some 0⟩

def wNow : Datetime := ⟨2030, 6, 7, 8, 9, 10, 0, some 0⟩

theorem save_state_crash_safe_replace_witness :
    wTmp ≠ wTarget ∧ dirname wTmp = dirname wTarget ∧
    ((save_state_trace wFs wTarget wTmp wT).1 wTarget = wFs wTarget ∧
     (save_state_trace wFs wTarget wTmp wT).2.1 wTarget = wFs wTarget ∧
     (save_state_trace wFs wTarget wTmp wT).2.2 wTarget = some (save_content wT) ∧
     (save_state_trace wFs wTarget wTmp wT).2.2 wTmp = none ∧
     dirname wTmp = dirname wTarget ∧
     save_content wT = String.mk (("\x7b\"last_reset\": \"").data ++
       (Datetime.isoformat wT).data ++ ("\", \"version\": 1\x7d").data)) :=
  ⟨by decide, by decide,
    save_state_crash_safe_replace wFs wTarget wTmp wT (by decide) (by decide)⟩

/-- C3: saving origin `t` and then loading the resulting target file
returns a timestamp equal to `t` - `fromisoformat` recovers exactly what
`isoformat` wrote (ISO-8601 precision is microseconds, which the
round trip preserves). -/
theorem save_then_load_returns_same_timestamp (fs : FS) (target tmp : String)
    (t now : Datetime) (hv : t.Valid) (hne : tmp ≠ target) :
    load_state (Option.map String.data ((save_state_trace fs target tmp t).2.2 target))
      now = t := by
  have htf : ¬ (target = tmp) := fun h => hne h.symm
  have h3 : (save_state_trace fs target tmp t).2.2 target = some (save_content t) := by
    simp [save_state_trace, fsUpdate, htf]
  rw [h3]
  show load_state (some (saveContentChars (isoChars t))) now = t
  unfold load_state
  dsimp only
  rw [parseJson_save (isoChars t) (isoChars_no_special t hv)]
  dsimp only
  rw [show lookupKey lastResetKey
    [(lastResetKey, JVal.jstr (isoChars t)), (versionKey, JVal.jnum 1)] =
    some (JVal.jstr (isoChars t)) from by simp [lookupKey]]
  dsimp only
  rw [if_neg (isoChars_ne_nil t)]
  rw [parseIsoChars_isoChars t hv]

theorem save_then_load_returns_same_timestamp_witness :
    wT.Valid ∧ wTmp ≠ wTarget ∧
    load_state (Option.map String.data
      ((save_state_trace wFs wTarget wTmp wT).2.2 wTarget)) wNow = wT :=
  ⟨by decide, by decide,
    save_then_load_returns_same_timestamp wFs wTarget wTmp wT wNow (by decide) (by decide)⟩

theorem load_state_empty_string_last_reset_witness :
    parseJson (("\x7b\"last_reset\": \"\", \"version\": 1\x7d").data) =
      some [(lastResetKey, JVal.jstr []), (versionKey, JVal.jnum 1)] ∧
    lookupKey lastResetKey [(lastResetKey, JVal.jstr []), (versionKey, JVal.jnum 1)] =
      some (JVal.jstr []) ∧
    load_state (some (("\x7b\"last_reset\": \"\", \"version\": 1\x7d").data)) wNow = wNow :=
  ⟨by decide, by decide,
    load_state_empty_string_last_reset (("\x7b\"last_reset\": \"\", \"version\": 1\x7d").data)
      [(lastResetKey, JVal.jstr []), (versionKey, JVal.jnum 1)] wNow
      (by decide) (by decide)⟩

end DnsFail
